import Mathlib

/-!
Verification of the aave-v3 liquidator strategy core.

Shallow embedding of `src/strategies/wad_ray_math.rs` and
`src/strategies/aave_strategy.rs`.  256-bit unsigned quantities are
naturals below `2 ^ 256`; the uint operations used by the source abort
("panic") on overflow and on division by zero, which is modelled by
`Except.error`.  Fallible Rust functions returning `Result` are likewise
modelled as `Except String`.
-/

/-! ## 256-bit unsigned primitives -/

def U256_MAX : Nat := 2 ^ 256 - 1

/-- `a * b` on U256: aborts when the product does not fit. -/
def u256_mul (a b : Nat) : Except String Nat :=
  if a * b ≤ U256_MAX then Except.ok (a * b) else Except.error "U256 mul overflow"

/-- `a + b` on U256: aborts when the sum does not fit. -/
def u256_add (a b : Nat) : Except String Nat :=
  if a + b ≤ U256_MAX then Except.ok (a + b) else Except.error "U256 add overflow"

/-- `a / b` on U256: aborts on a zero divisor, otherwise floor division. -/
def u256_div (a b : Nat) : Except String Nat :=
  if b = 0 then Except.error "U256 division by zero" else Except.ok (a / b)

/-- `U256::from(10).pow(d)`: aborts when the power does not fit. -/
def u256_pow10 (d : Nat) : Except String Nat :=
  if 10 ^ d ≤ U256_MAX then Except.ok (10 ^ d) else Except.error "U256 pow overflow"

/-! ## wad_ray_math.rs

The four operations guard with a pre-multiplication bound check and then
compute directly on U256; the guarded computation is shown (in
`wad_ray_mul_spec`) never to leave the 256-bit range, so plain natural
arithmetic is the faithful embedding of the post-guard expression. -/

def WAD : Nat := 1000000000000000000
def HALF_WAD : Nat := 500000000000000000
def RAY : Nat := 1000000000000000000000000000
def HALF_RAY : Nat := 500000000000000000000000000

/-- `wad_mul` from wad_ray_math.rs. -/
def wad_mul (a b : Nat) : Except String Nat :=
  if b = 0 then Except.ok 0
  else if a > (U256_MAX - HALF_WAD) / b then Except.error "wadMul: multiplication overflow"
  else Except.ok ((a * b + HALF_WAD) / WAD)

/-- `wad_div` from wad_ray_math.rs. -/
def wad_div (a b : Nat) : Except String Nat :=
  if b = 0 then Except.error "wadDiv: division by zero"
  else if a > (U256_MAX - b / 2) / WAD then Except.error "wadDiv: multiplication overflow"
  else Except.ok ((a * WAD + b / 2) / b)

/-- `ray_mul` from wad_ray_math.rs. -/
def ray_mul (a b : Nat) : Except String Nat :=
  if b = 0 then Except.ok 0
  else if a > (U256_MAX - HALF_RAY) / b then Except.error "rayMul: multiplication overflow"
  else Except.ok ((a * b + HALF_RAY) / RAY)

/-- `ray_div` from wad_ray_math.rs. -/
def ray_div (a b : Nat) : Except String Nat :=
  if b = 0 then Except.error "rayDiv: division by zero"
  else if a > (U256_MAX - b / 2) / RAY then Except.error "rayDiv: multiplication overflow"
  else Except.ok ((a * RAY + b / 2) / b)

/-! ## Basis-point helpers (aave_strategy.rs, bottom of file)

`percent_mul` and `percent_div` use raw U256 `*`, `+` and `/` with no
guarding, so every intermediate step can abort. -/

/-- `percent_mul(a, bps) = (5000 + a * bps) / 10000` on raw U256 arithmetic. -/
def percent_mul (a bps : Nat) : Except String Nat := do
  let p ← u256_mul a bps
  let s ← u256_add 5000 p
  u256_div s 10000

/-- `percent_div(a, bps) = (bps / 2 + a * 10000) / bps` on raw U256 arithmetic. -/
def percent_div (a bps : Nat) : Except String Nat := do
  let p ← u256_mul a 10000
  let s ← u256_add (bps / 2) p
  u256_div s bps

/-! ## 256-bit signed primitives

`I256` values are integers in `[I256_MIN, I256_MAX]`; the literals are
`-(2 ^ 255)` and `2 ^ 255 - 1`.  `checked_*` followed by `.unwrap()` and the
raw panicking operators are both modelled as `Except.error` on overflow;
`I256` division truncates toward zero (`Int.tdiv`). -/

def I256_MIN : Int := -57896044618658097711785492504343953926634992332820282019728792003956564819968
def I256_MAX : Int := 57896044618658097711785492504343953926634992332820282019728792003956564819967

/-- `I256::from_dec_str(&u256_value.to_string())`: fails when the U256 value
exceeds `I256::MAX`. -/
def i256_of_u256 (n : Nat) : Except String Int :=
  if (n : Int) ≤ I256_MAX then Except.ok (n : Int) else Except.error "I256 conversion overflow"

def i256_checked_mul (x y : Int) : Except String Int :=
  if I256_MIN ≤ x * y ∧ x * y ≤ I256_MAX then Except.ok (x * y)
  else Except.error "I256 mul overflow"

def i256_checked_sub (x y : Int) : Except String Int :=
  if I256_MIN ≤ x - y ∧ x - y ≤ I256_MAX then Except.ok (x - y)
  else Except.error "I256 sub overflow"

def i256_checked_div (x y : Int) : Except String Int :=
  if y = 0 then Except.error "I256 division by zero"
  else if x = I256_MIN ∧ y = -1 then Except.error "I256 div overflow"
  else Except.ok (Int.tdiv x y)

/-! ## Association-list model of HashMap / HashSet

`HashMap` keyed by addresses (addresses are naturals) is an association
list with `insertAssoc` replacing an existing binding in place;
`HashSet::insert` is `insertSet`, a no-op when the element is present.
The iteration order of a set (the source takes `.iter().next()` as the
arbitrary chosen element) is insertion order here. -/

def lookupAssoc {β : Type} : List (Nat × β) → Nat → Option β
  | [], _ => none
  | (k, v) :: rest, a => if k = a then some v else lookupAssoc rest a

def insertAssoc {β : Type} : List (Nat × β) → Nat → β → List (Nat × β)
  | [], k, v => [(k, v)]
  | (k', v') :: rest, k, v =>
    if k' = k then (k, v) :: rest else (k', v') :: insertAssoc rest k v

def insertSet (l : List Nat) (x : Nat) : List Nat :=
  if x ∈ l then l else l ++ [x]

/-! ## Data model (aave_strategy.rs) -/

/-- `Borrower`: address plus collateral and debt asset sets. -/
structure Borrower where
  address : Nat
  collateral : List Nat
  debt : List Nat
deriving DecidableEq

/-- One decoded `BorrowFilter` / `SupplyFilter` log. -/
structure LogEntry where
  on_behalf_of : Nat
  reserve : Nat
deriving DecidableEq

/-- `StateCache`: the persisted checkpoint plus borrower map. -/
structure StateCache where
  last_block_number : Nat
  borrowers : List (Nat × Borrower)
deriving DecidableEq

/-- `TokenConfig`: per-reserve static parameters. -/
structure TokenConfig where
  address : Nat
  a_address : Nat
  decimals : Nat
  ltv : Nat
  liquidation_threshold : Nat
  liquidation_bonus : Nat
  reserve_factor : Nat
  protocol_fee : Nat
  symbol : String
deriving DecidableEq

/-- `LiquidationOpportunity`. -/
structure LiquidationOpportunity where
  borrower : Nat
  collateral : Nat
  debt : Nat
  debt_to_cover : Nat
  profit_eth : Int
  collateral_symbol : String
  debt_symbol : String
  profit_factor : Int
deriving DecidableEq

/-! ## Constants (aave_strategy.rs, top of file) -/

/-- The source writes `pub const LIQUIDATION_CLOSE_FACTOR_THRESHOLD: &str =
"950000000000000000"` and compares with
`U256::from(LIQUIDATION_CLOSE_FACTOR_THRESHOLD)`.  The uint crate behind
ethers implements `From<&str>` for U256 by hexadecimal parsing (decimal
parsing is the separate `U256::from_dec_str`, which the source does use
elsewhere, e.g. for the health-factor bound 1e18).  The string therefore
denotes 0x950000000000000000 = 2748564866982723190784, not the decimal
0.95e18 = 950000000000000000. -/
def LIQUIDATION_CLOSE_FACTOR_THRESHOLD : Nat := 0x950000000000000000

def MAX_LIQUIDATION_CLOSE_FACTOR : Nat := 10000
def DEFAULT_LIQUIDATION_CLOSE_FACTOR : Nat := 5000
def LOG_BLOCK_RANGE : Nat := 1024
def MULTICALL_CHUNK_SIZE : Nat := 500
def PRICE_ONE : Nat := 100000000

/-- The wad health-factor bound `U256::from_dec_str("1000000000000000000")`
used by `get_underwater_borrowers` (decimal parse, hence exactly 1e18). -/
def HEALTH_FACTOR_ONE : Nat := 1000000000000000000

/-- Close-factor selection inside `get_liquidation_opportunity`
(aave_strategy.rs lines 820-824). -/
def close_factor (health_factor : Nat) : Nat :=
  if health_factor > LIQUIDATION_CLOSE_FACTOR_THRESHOLD then DEFAULT_LIQUIDATION_CLOSE_FACTOR
  else MAX_LIQUIDATION_CLOSE_FACTOR

/-- Close-factor selection following the words of the spec (section 4.6
step 2): threshold 0.95 wad-scaled, i.e. the decimal value 0.95e18; kept
separate from `close_factor` to compare the code with the spec. -/
def spec_close_factor (health_factor : Nat) : Nat :=
  if health_factor > 950000000000000000 then DEFAULT_LIQUIDATION_CLOSE_FACTOR
  else MAX_LIQUIDATION_CLOSE_FACTOR

/-! ## State synchronizer (`update_state`, aave_strategy.rs lines 426-487)

Network effects are passed in as data: the chain head, the outcome of the
two windowed log queries, and whether the cache-file write succeeds.  The
in-memory strategy fields touched by `update_state` plus the persisted
file form `SyncState`; errors propagate exactly where the source `?`
operators sit, leaving whatever mutations had already happened in place. -/

/-- Folding one borrow event into the borrower map (lines 436-453). -/
def apply_borrow_log (bs : List (Nat × Borrower)) (log : LogEntry) : List (Nat × Borrower) :=
  match lookupAssoc bs log.on_behalf_of with
  | some b => insertAssoc bs log.on_behalf_of { b with debt := insertSet b.debt log.reserve }
  | none => insertAssoc bs log.on_behalf_of ⟨log.on_behalf_of, [], [log.reserve]⟩

/-- Folding one supply event into the borrower map (lines 458-475). -/
def apply_supply_log (bs : List (Nat × Borrower)) (log : LogEntry) : List (Nat × Borrower) :=
  match lookupAssoc bs log.on_behalf_of with
  | some b => insertAssoc bs log.on_behalf_of { b with collateral := insertSet b.collateral log.reserve }
  | none => insertAssoc bs log.on_behalf_of ⟨log.on_behalf_of, [log.reserve], []⟩

def apply_borrow_logs (bs : List (Nat × Borrower)) (logs : List LogEntry) : List (Nat × Borrower) :=
  logs.foldl apply_borrow_log bs

def apply_supply_logs (bs : List (Nat × Borrower)) (logs : List LogEntry) : List (Nat × Borrower) :=
  logs.foldl apply_supply_log bs

/-- The strategy state observed by `update_state`: in-memory checkpoint and
borrower map, plus the content of the persisted cache file. -/
structure SyncState where
  last_block_number : Nat
  borrowers : List (Nat × Borrower)
  cache_file : Option StateCache
deriving DecidableEq

/-- `update_state`.  Source order of the success path (lines 477-484):
the `StateCache` value is built, the in-memory checkpoint is assigned
`latest_block`, and only afterwards is the file created and written; a
failing write therefore returns an error with the checkpoint already
advanced and the file unchanged. -/
def update_state (s : SyncState) (latest_block : Nat)
    (borrow_logs supply_logs : Except String (List LogEntry))
    (write_ok : Bool) : Except String Unit × SyncState :=
  match borrow_logs with
  | Except.error e => (Except.error e, s)
  | Except.ok blogs =>
    let s1 : SyncState := { s with borrowers := apply_borrow_logs s.borrowers blogs }
    match supply_logs with
    | Except.error e => (Except.error e, s1)
    | Except.ok slogs =>
      let s2 : SyncState := { s1 with borrowers := apply_supply_logs s1.borrowers slogs }
      let cache : StateCache := ⟨latest_block, s2.borrowers⟩
      let s3 : SyncState := { s2 with last_block_number := latest_block }
      if write_ok then (Except.ok (), { s3 with cache_file := some cache })
      else (Except.error "failed to write state cache", s3)

/-! ## Log query windows (`get_borrow_logs` / `get_supply_logs`,
aave_strategy.rs lines 490-535)

Both fetchers run `for start_block in (from..to).step_by(1024)` with
`end_block = min(start_block + LOG_BLOCK_RANGE - 1, to)`.  The half-open
stepped range visits `f + 1024 * k` exactly for the `k` with
`f + 1024 * k < t`, i.e. `k < (t - f + 1023) / 1024`; each iteration
queries the inclusive window `(start_block, end_block)`. -/

def get_log_windows (f t : Nat) : List (Nat × Nat) :=
  (List.range ((t - f + 1023) / 1024)).map
    (fun k => (f + 1024 * k, min (f + 1024 * k + 1023) t))

/-! ## Underwater scanner (`get_underwater_borrowers`, lines 340-399)

The borrowers holding debt are chunked 500 at a time; each chunk is sent
as one multicall and every result with health factor strictly below 1e18
is appended; after a chunk, scanning stops if 50 or more candidates have
accumulated; finally the list is sorted ascending by health factor.  The
input here is the zipped list of (borrower address, queried health
factor), in scan order. -/

def chunksN {α : Type} : Nat → List α → List (List α)
  | 0, _ => []
  | _ + 1, [] => []
  | n + 1, x :: xs => ((x :: xs).take MULTICALL_CHUNK_SIZE) :: chunksN n ((x :: xs).drop MULTICALL_CHUNK_SIZE)

def chunks {α : Type} (l : List α) : List (List α) := chunksN l.length l

def underwater_scan : List (List (Nat × Nat)) → List (Nat × Nat) → List (Nat × Nat)
  | [], acc => acc
  | c :: rest, acc =>
    let acc2 := acc ++ c.filter (fun p => p.2 < HEALTH_FACTOR_ONE)
    if 50 ≤ acc2.length then acc2 else underwater_scan rest acc2

/-- `sort_by(|a, b| a.1.cmp(&b.1))`: ascending stable sort on the health
factor component, as insertion sort. -/
def insert_by_hf (x : Nat × Nat) : List (Nat × Nat) → List (Nat × Nat)
  | [] => [x]
  | y :: ys => if x.2 < y.2 then x :: y :: ys else y :: insert_by_hf x ys

def sort_by_hf (l : List (Nat × Nat)) : List (Nat × Nat) := l.foldr insert_by_hf []

def get_underwater_borrowers (pairs : List (Nat × Nat)) : List (Nat × Nat) :=
  sort_by_hf (underwater_scan (chunks pairs) [])

/-! ## Reserve configuration cache (`update_token_configs`, lines 631-681)

For each reserve token the source awaits
`get_reserve_configuration_data` and then `get_liquidation_protocol_fee`;
on success it inserts into `self.tokens`, on either failure it only logs.
`self.tokens` is never cleared, so the fold starts from the existing map. -/

/-- One reserve with the outcomes of its two introspection calls. -/
structure ReserveFetch where
  token_address : Nat
  a_token_address : Nat
  symbol : String
  configuration : Except String (Nat × Nat × Nat × Nat × Nat)
  protocol_fee : Except String Nat

def fetch_ok (f : ReserveFetch) : Bool := f.configuration.isOk && f.protocol_fee.isOk

def update_token_configs (tokens : List (Nat × TokenConfig)) (fetches : List ReserveFetch) :
    List (Nat × TokenConfig) :=
  fetches.foldl
    (fun tks f =>
      match f.configuration with
      | Except.error _ => tks
      | Except.ok (decimals, ltv, threshold, bonus, reserve) =>
        match f.protocol_fee with
        | Except.error _ => tks
        | Except.ok fee =>
          insertAssoc tks f.token_address
            ⟨f.token_address, f.a_token_address, decimals, ltv, threshold, bonus, reserve, fee, f.symbol⟩)
    tokens

/-- One fold step of `update_token_configs`. -/
def token_config_step (tks : List (Nat × TokenConfig)) (f : ReserveFetch) :
    List (Nat × TokenConfig) :=
  match f.configuration with
  | Except.error _ => tks
  | Except.ok (decimals, ltv, threshold, bonus, reserve) =>
    match f.protocol_fee with
    | Except.error _ => tks
    | Except.ok fee =>
      insertAssoc tks f.token_address
        ⟨f.token_address, f.a_token_address, decimals, ltv, threshold, bonus, reserve, fee, f.symbol⟩


/-! ## Opportunity evaluator (`get_liquidation_opportunity`, lines 777-925)

Network reads are passed in as data: the price snapshot, the token map,
the user reserve data (stable and variable debt), the aToken balance of
the borrower, whether the L2 encoder address is the zero address, and the
result of the read-only simulated liquidation call (helper-contract
mode).  All U256/I256 arithmetic steps of the source appear in order with
their abort behaviour. -/

def require_some {α : Type} : Option α → String → Except String α
  | some a, _ => Except.ok a
  | none, msg => Except.error msg

/-- `get_asset_price_eth` (lines 684-712). -/
def get_asset_price_eth (weth_address : Nat) (prices : List (Nat × Nat)) (asset : Nat) :
    Except String Nat :=
  if asset = weth_address then Except.ok PRICE_ONE
  else do
    let usd_price ← require_some (lookupAssoc prices asset) "No price found for asset"
    let usd_price_eth ← require_some (lookupAssoc prices weth_address) "No price found for weth"
    let m ← u256_mul usd_price PRICE_ONE
    u256_div m usd_price_eth

/-- The collateral cap of `get_liquidation_opportunity` (lines 833-837):
when the bonus-scaled collateral exceeds the borrower's aToken balance,
clamp it to the balance and recompute `debt_to_cover` by inverting the
bonus scaling; otherwise keep both quantities. -/
def collateral_cap (collateral_asset_price user_collateral_balance debt_unit
    debt_asset_price collateral_unit liquidation_bonus ctl0 debt_to_cover0 : Nat) :
    Except String (Nat × Nat) :=
  if ctl0 > user_collateral_balance then do
    let m1 ← u256_mul collateral_asset_price user_collateral_balance
    let m2 ← u256_mul m1 debt_unit
    let q1 ← u256_mul debt_asset_price collateral_unit
    let q2 ← percent_div q1 liquidation_bonus
    let dtc ← u256_div m2 q2
    Except.ok (user_collateral_balance, dtc)
  else Except.ok (ctl0, debt_to_cover0)

/-- The direct-liquidator (`use_aave_liquidator = true`) tail of
`get_liquidation_opportunity` (lines 866-912): value collateral and debt
in native currency, then reject on zero `debt_to_cover` or on identical
collateral and debt assets, else return the opportunity. -/
def direct_mode_finish (borrower_address collateral_address debt_address : Nat)
    (debt_to_cover collateral_to_liquidate collateral_unit debt_unit : Nat)
    (asset_price_in_eth debt_price_in_eth : Nat)
    (collateral_symbol debt_symbol : String) : Except String LiquidationOpportunity := do
  let p1 ← i256_of_u256 asset_price_in_eth
  let c1 ← i256_of_u256 collateral_to_liquidate
  let av1 ← i256_checked_mul p1 c1
  let cu ← i256_of_u256 collateral_unit
  let asset_value_in_eth ← i256_checked_div av1 cu
  let p2 ← i256_of_u256 debt_price_in_eth
  let d2 ← i256_of_u256 debt_to_cover
  let dv1 ← i256_checked_mul p2 d2
  let du ← i256_of_u256 debt_unit
  let debt_value_in_eth ← i256_checked_div dv1 du
  let profit_eth ← i256_checked_sub asset_value_in_eth debt_value_in_eth
  let pfm ← i256_checked_mul asset_value_in_eth 100
  let profit_factor :=
    match i256_checked_div pfm debt_value_in_eth with
    | Except.ok q => q
    | Except.error _ => 0
  if debt_to_cover = 0 then
    Except.error "No debt to cover for borrower"
  else if collateral_address = debt_address then
    Except.error "Collateral and debt are the same, not support yet"
  else
    Except.ok ⟨borrower_address, collateral_address, debt_address, debt_to_cover,
      profit_eth, collateral_symbol, debt_symbol, profit_factor⟩

/-- The helper-contract (`use_aave_liquidator = false`) tail of
`get_liquidation_opportunity` (lines 913-917): abort when the L2 encoder
is missing, then convert the simulated gain to native currency.  Note it
performs neither the zero-`debt_to_cover` nor the identical-assets
check. -/
def helper_mode_finish (borrower_address collateral_address debt_address : Nat)
    (debt_to_cover : Nat) (asset_price_in_eth : Nat)
    (collateral_symbol debt_symbol : String)
    (l2_encoder_zero : Bool) (call_gain : Except String Int) :
    Except String LiquidationOpportunity := do
  if l2_encoder_zero then Except.error "L2 Encoder address is not deployed on this network"
  else do
    let gain ← call_gain
    let pe ← i256_of_u256 asset_price_in_eth
    let m ← i256_checked_mul gain pe
    let profit_eth := Int.tdiv m (PRICE_ONE : Int)
    Except.ok ⟨borrower_address, collateral_address, debt_address, debt_to_cover,
      profit_eth, collateral_symbol, debt_symbol, 0⟩

def get_liquidation_opportunity
    (use_aave_liquidator : Bool)
    (weth_address : Nat)
    (tokens : List (Nat × TokenConfig))
    (prices : List (Nat × Nat))
    (borrower : Borrower)
    (health_factor : Nat)
    (stable_debt variable_debt : Nat)
    (user_collateral_balance : Nat)
    (l2_encoder_zero : Bool)
    (call_gain : Except String Int) :
    Except String LiquidationOpportunity := do
  let collateral_address ← require_some borrower.collateral.head? "No collateral found"
  let debt_address ← require_some borrower.debt.head? "No debt found"
  let collateral_asset_price ← require_some (lookupAssoc prices collateral_address) "No collateral price"
  let debt_asset_price ← require_some (lookupAssoc prices debt_address) "No debt price"
  let collateral_config ← require_some (lookupAssoc tokens collateral_address) "Failed to get collateral address"
  let debt_config ← require_some (lookupAssoc tokens debt_address) "Failed to get debt address"
  let collateral_unit ← u256_pow10 collateral_config.decimals
  let debt_unit ← u256_pow10 debt_config.decimals
  let liquidation_bonus := collateral_config.liquidation_bonus
  let cf := close_factor health_factor
  let total_debt ← u256_add stable_debt variable_debt
  let tdc ← u256_mul total_debt cf
  let debt_to_cover0 ← u256_div tdc MAX_LIQUIDATION_CLOSE_FACTOR
  let n1 ← u256_mul debt_asset_price debt_to_cover0
  let n2 ← u256_mul n1 collateral_unit
  let d1 ← u256_mul collateral_asset_price debt_unit
  let base_collateral ← u256_div n2 d1
  let ctl0 ← percent_mul base_collateral liquidation_bonus
  let pair ← collateral_cap collateral_asset_price user_collateral_balance debt_unit
    debt_asset_price collateral_unit liquidation_bonus ctl0 debt_to_cover0
  let collateral_to_liquidate := pair.1
  let debt_to_cover := pair.2
  let collateral_symbol := (lookupAssoc tokens collateral_address).elim "" (fun c => c.symbol)
  let debt_symbol := (lookupAssoc tokens debt_address).elim "" (fun c => c.symbol)
  let asset_price_in_eth ← get_asset_price_eth weth_address prices collateral_address
  let debt_price_in_eth ← get_asset_price_eth weth_address prices debt_address
  if use_aave_liquidator then
    direct_mode_finish borrower.address collateral_address debt_address debt_to_cover
      collateral_to_liquidate collateral_unit debt_unit asset_price_in_eth debt_price_in_eth
      collateral_symbol debt_symbol
  else
    helper_mode_finish borrower.address collateral_address debt_address debt_to_cover
      asset_price_in_eth collateral_symbol debt_symbol l2_encoder_zero call_gain

/-! ## Best-opportunity selection and tick processing
(`get_best_liquidation_op` lines 714-751, `process_new_tick_event` lines
287-337)

The loop body of `get_best_liquidation_op` receives, per underwater
borrower in scan order, the outcome of `get_liquidation_opportunity`
(whose errors it swallows with `.ok()`); the running best starts at
`I256::MIN` and is replaced under strict greater-than comparison. -/

def track_best :
    List (Except String LiquidationOpportunity) → Int → Option LiquidationOpportunity →
    Option LiquidationOpportunity
  | [], _, best => best
  | c :: rest, best_bonus, best =>
    match c with
    | Except.ok op =>
      if op.profit_eth > best_bonus then track_best rest op.profit_eth (some op)
      else track_best rest best_bonus best
    | Except.error _ => track_best rest best_bonus best

def get_best_liquidation_op (underwater_empty : Bool)
    (cands : List (Except String LiquidationOpportunity)) :
    Except String (Option LiquidationOpportunity) :=
  if underwater_empty then Except.error "No underwater borrowers found"
  else Except.ok (track_best cands I256_MIN none)

/-- The candidates that evaluated without error, in scan order. -/
def ok_ops (cands : List (Except String LiquidationOpportunity)) :
    List LiquidationOpportunity :=
  cands.filterMap Except.toOption

/-- Selector following the words of the spec (section 4.6 step 9): scan
the successfully evaluated candidates in order, keep the single best
under strict greater-than comparison on profit, first-encountered kept
among ties; kept separate from `track_best` to compare code with spec. -/
def spec_track_step (best : Option LiquidationOpportunity) (op : LiquidationOpportunity) :
    Option LiquidationOpportunity :=
  match best with
  | none => some op
  | some b => if op.profit_eth > b.profit_eth then some op else best

def spec_track_best (ops : List LiquidationOpportunity) : Option LiquidationOpportunity :=
  ops.foldl spec_track_step none

/-- `U256::from_dec_str(&profit.to_string())` on an I256 profit: fails on
the leading minus sign of a negative value. -/
def u256_of_profit (i : Int) : Except String Nat :=
  if i < 0 then Except.error "invalid digit" else Except.ok i.toNat

/-- The one action kind emitted by the strategy. -/
inductive TickAction where
  | submit_tx (op : LiquidationOpportunity) (bid_percentage : Nat) (total_profit : Nat)
deriving DecidableEq

/-- `process_new_tick_event`.  Effects passed as data: the outcome of
`update_state`, whether the underwater list came back empty (which makes
`get_best_liquidation_op` return an error), the per-borrower evaluation
outcomes, and whether `build_liquidation` succeeds. -/
def process_new_tick_event (update_result : Except String Unit) (underwater_empty : Bool)
    (cands : List (Except String LiquidationOpportunity)) (build_ok : Bool)
    (bid_percentage : Nat) : List TickAction :=
  match update_result with
  | Except.error _ => []
  | Except.ok _ =>
    match ((get_best_liquidation_op underwater_empty cands).toOption).join with
    | none => []
    | some op =>
      if op.profit_eth < 0 then []
      else if build_ok = false then []
      else
        match u256_of_profit op.profit_eth with
        | Except.ok total_profit => [TickAction.submit_tx op bid_percentage total_profit]
        | Except.error _ => []

/-! # Theorems -/

/-! ## Arithmetic helpers -/

theorem lt_div_succ_mul (x S : Nat) (hS : 0 < S) : x < (x / S + 1) * S := by
  rw [Nat.succ_mul]
  have h1 := Nat.div_add_mod x S
  have h2 := Nat.mod_lt x hS
  calc x = S * (x / S) + x % S := h1.symm
    _ < S * (x / S) + S := Nat.add_lt_add_left h2 _
    _ = x / S * S + S := by rw [Nat.mul_comm]

/-- Round-trip bound for the guarded fixed-point multiply/divide pair at
scale `S` with rounding constant `H = S / 2`, when the divisor is at
least one whole unit. -/
theorem fp_roundtrip_core (S H a b m r : Nat) (hS : H + H = S) (hSpos : 0 < S) (hb : S ≤ b)
    (hm : m = (a * b + H) / S) (hr : r = (m * S + b / 2) / b) :
    r ≤ a + 1 ∧ a ≤ r + 1 := by
  have hbpos : 0 < b := lt_of_lt_of_le hSpos hb
  have hH2 : H * 2 ≤ b := by omega
  have hup : m * S ≤ a * b + H := by rw [hm]; exact Nat.div_mul_le_self _ _
  have hlow : a * b + H < m * S + S := by
    rw [hm]
    have h3 := lt_div_succ_mul (a * b + H) S hSpos
    rw [Nat.succ_mul] at h3
    exact h3
  constructor
  · rw [hr]
    have h3 : m * S + b / 2 ≤ (a + 1) * b := by
      calc m * S + b / 2 ≤ a * b + H + b / 2 := Nat.add_le_add_right hup _
        _ = a * b + (H + b / 2) := by rw [Nat.add_assoc]
        _ ≤ a * b + b := Nat.add_le_add_left (by omega) _
        _ = (a + 1) * b := (Nat.succ_mul a b).symm
    exact le_trans (Nat.div_le_div_right h3) (le_of_eq (Nat.mul_div_cancel _ hbpos))
  · cases a with
    | zero => exact Nat.zero_le _
    | succ a' =>
      have e2 : (a' + 1) * b + H < m * S + S := hlow
      nth_rewrite 2 [← hS] at e2
      rw [← Nat.add_assoc] at e2
      have e3 : (a' + 1) * b < m * S + H := Nat.lt_of_add_lt_add_right e2
      have e1 : (a' + 1) * b ≤ m * S + b / 2 :=
        le_trans (le_of_lt e3) (Nat.add_le_add_left (by omega) _)
      have e4 : a' ≤ r := by
        rw [hr]
        exact (Nat.le_div_iff_mul_le hbpos).2
          (le_trans (Nat.mul_le_mul_right b (Nat.le_succ a')) e1)
      omega

theorem wad_mul_eq_ok {a b m : Nat} (hb : b ≠ 0) (h : wad_mul a b = Except.ok m) :
    m = (a * b + HALF_WAD) / WAD := by
  unfold wad_mul at h
  rw [if_neg hb] at h
  by_cases hov : a > (U256_MAX - HALF_WAD) / b
  · rw [if_pos hov] at h; exact Except.noConfusion h
  · rw [if_neg hov] at h; cases h; rfl

theorem wad_div_eq_ok {a b r : Nat} (hb : b ≠ 0) (h : wad_div a b = Except.ok r) :
    r = (a * WAD + b / 2) / b := by
  unfold wad_div at h
  rw [if_neg hb] at h
  by_cases hov : a > (U256_MAX - b / 2) / WAD
  · rw [if_pos hov] at h; exact Except.noConfusion h
  · rw [if_neg hov] at h; cases h; rfl

theorem ray_mul_eq_ok {a b m : Nat} (hb : b ≠ 0) (h : ray_mul a b = Except.ok m) :
    m = (a * b + HALF_RAY) / RAY := by
  unfold ray_mul at h
  rw [if_neg hb] at h
  by_cases hov : a > (U256_MAX - HALF_RAY) / b
  · rw [if_pos hov] at h; exact Except.noConfusion h
  · rw [if_neg hov] at h; cases h; rfl

theorem ray_div_eq_ok {a b r : Nat} (hb : b ≠ 0) (h : ray_div a b = Except.ok r) :
    r = (a * RAY + b / 2) / b := by
  unfold ray_div at h
  rw [if_neg hb] at h
  by_cases hov : a > (U256_MAX - b / 2) / RAY
  · rw [if_pos hov] at h; exact Except.noConfusion h
  · rw [if_neg hov] at h; cases h; rfl

/-- C8: for 256-bit `a`, `b`, the fixed-point multiplies return 0 without
error when `b = 0` (and when `a = 0`), fail exactly when `b ≠ 0` and
`a > (U256_MAX - SCALE/2) / b`, and otherwise return the round-half-up
value `(a * b + SCALE/2) / SCALE`, the guarded computation staying within
256 bits. -/
theorem wad_ray_mul_spec :
    ∀ a b : Nat, a ≤ U256_MAX → b ≤ U256_MAX →
      (wad_mul a 0 = Except.ok 0 ∧ ray_mul a 0 = Except.ok 0
        ∧ wad_mul 0 b = Except.ok 0 ∧ ray_mul 0 b = Except.ok 0)
      ∧ ((∃ e, wad_mul a b = Except.error e) ↔ b ≠ 0 ∧ a > (U256_MAX - HALF_WAD) / b)
      ∧ ((∃ e, ray_mul a b = Except.error e) ↔ b ≠ 0 ∧ a > (U256_MAX - HALF_RAY) / b)
      ∧ (b ≠ 0 → a ≤ (U256_MAX - HALF_WAD) / b →
          wad_mul a b = Except.ok ((a * b + HALF_WAD) / WAD) ∧ a * b + HALF_WAD ≤ U256_MAX)
      ∧ (b ≠ 0 → a ≤ (U256_MAX - HALF_RAY) / b →
          ray_mul a b = Except.ok ((a * b + HALF_RAY) / RAY) ∧ a * b + HALF_RAY ≤ U256_MAX) := by
  intro a b _ _
  refine ⟨⟨by simp [wad_mul], by simp [ray_mul], ?_, ?_⟩, ?_, ?_, ?_, ?_⟩
  · by_cases hb : b = 0
    · simp [wad_mul, hb]
    · have h0 : ¬ ((U256_MAX - HALF_WAD) / b < 0) := Nat.not_lt_zero _
      simp only [wad_mul, if_neg hb, gt_iff_lt, if_neg h0, Nat.zero_mul, Nat.zero_add]
      have : HALF_WAD / WAD = 0 := by decide
      rw [this]
  · by_cases hb : b = 0
    · simp [ray_mul, hb]
    · have h0 : ¬ ((U256_MAX - HALF_RAY) / b < 0) := Nat.not_lt_zero _
      simp only [ray_mul, if_neg hb, gt_iff_lt, if_neg h0, Nat.zero_mul, Nat.zero_add]
      have : HALF_RAY / RAY = 0 := by decide
      rw [this]
  · constructor
    · rintro ⟨e, he⟩
      unfold wad_mul at he
      by_cases hb : b = 0
      · rw [if_pos hb] at he; exact Except.noConfusion he
      · rw [if_neg hb] at he
        by_cases hov : a > (U256_MAX - HALF_WAD) / b
        · exact ⟨hb, hov⟩
        · rw [if_neg hov] at he; exact Except.noConfusion he
    · rintro ⟨hb, hov⟩
      exact ⟨_, by rw [wad_mul, if_neg hb, if_pos hov]⟩
  · constructor
    · rintro ⟨e, he⟩
      unfold ray_mul at he
      by_cases hb : b = 0
      · rw [if_pos hb] at he; exact Except.noConfusion he
      · rw [if_neg hb] at he
        by_cases hov : a > (U256_MAX - HALF_RAY) / b
        · exact ⟨hb, hov⟩
        · rw [if_neg hov] at he; exact Except.noConfusion he
    · rintro ⟨hb, hov⟩
      exact ⟨_, by rw [ray_mul, if_neg hb, if_pos hov]⟩
  · intro hb hle
    refine ⟨by rw [wad_mul, if_neg hb, if_neg (Nat.not_lt.mpr hle)], ?_⟩
    have h1 : a * b ≤ U256_MAX - HALF_WAD :=
      (Nat.le_div_iff_mul_le (Nat.pos_of_ne_zero hb)).1 hle
    have h2 : HALF_WAD ≤ U256_MAX := by decide
    revert h1
    generalize a * b = P
    intro h1
    omega
  · intro hb hle
    refine ⟨by rw [ray_mul, if_neg hb, if_neg (Nat.not_lt.mpr hle)], ?_⟩
    have h1 : a * b ≤ U256_MAX - HALF_RAY :=
      (Nat.le_div_iff_mul_le (Nat.pos_of_ne_zero hb)).1 hle
    have h2 : HALF_RAY ≤ U256_MAX := by decide
    revert h1
    generalize a * b = P
    intro h1
    omega

/-- C8 witness at `a = 3`, `b = 2`. -/
theorem wad_ray_mul_spec_witness :
    wad_mul 3 0 = Except.ok 0 ∧ ray_mul 3 0 = Except.ok 0
      ∧ wad_mul 0 2 = Except.ok 0 ∧ ray_mul 0 2 = Except.ok 0 :=
  (wad_ray_mul_spec 3 2 (by decide) (by decide)).1

/-- C9 counterexample: at `a = 2`, `b = 1` neither operation raises an
error, yet `div(mul(2, 1), 1) = 0` differs from `a = 2` by two units. -/
theorem roundtrip_one_unit_cex :
    wad_mul 2 1 = Except.ok 0 ∧ wad_div 0 1 = Except.ok 0 ∧ ¬ ((2 : Nat) ≤ 0 + 1) :=
  ⟨rfl, rfl, by decide⟩

/-- C9 (amended): when the divisor is at least one whole unit of the
scale (`b ≥ SCALE`) and neither operation raises an error,
`div(mul(a, b), b)` equals `a` to within one unit, for both variants. -/
theorem roundtrip_within_one_unit :
    (∀ a b m r : Nat, WAD ≤ b → wad_mul a b = Except.ok m → wad_div m b = Except.ok r →
      r ≤ a + 1 ∧ a ≤ r + 1)
    ∧ (∀ a b m r : Nat, RAY ≤ b → ray_mul a b = Except.ok m → ray_div m b = Except.ok r →
      r ≤ a + 1 ∧ a ≤ r + 1) := by
  constructor
  · intro a b m r hb hm hr
    have hw : 0 < WAD := by decide
    have hb0 : b ≠ 0 := by omega
    exact fp_roundtrip_core WAD HALF_WAD a b m r (by decide) hw hb
      (wad_mul_eq_ok hb0 hm) (wad_div_eq_ok hb0 hr)
  · intro a b m r hb hm hr
    have hw : 0 < RAY := by decide
    have hb0 : b ≠ 0 := by omega
    exact fp_roundtrip_core RAY HALF_RAY a b m r (by decide) hw hb
      (ray_mul_eq_ok hb0 hm) (ray_div_eq_ok hb0 hr)

/-- C9 witness at `a = 5`, `b = WAD`. -/
theorem roundtrip_within_one_unit_witness :
    WAD ≤ WAD ∧ wad_mul 5 WAD = Except.ok 5 ∧ wad_div 5 WAD = Except.ok 5
      ∧ (5 ≤ 5 + 1 ∧ 5 ≤ 5 + 1) :=
  ⟨le_refl WAD, rfl, rfl, roundtrip_within_one_unit.1 5 WAD 5 5 (le_refl WAD) rfl rfl⟩

/-- C10: the basis-point helpers perform no guarding of their own: a zero
`bps` reaches the division (abort), an oversized product aborts the raw
multiplication, and under the preconditions (nonzero divisor, whole
intermediate computation within 256 bits) they return the round-half-up
basis-point scaling. -/
theorem percent_helpers_totality :
    (∀ a : Nat, (percent_div a 0).isOk = false)
    ∧ (∀ a bps : Nat, U256_MAX < a * bps → (percent_mul a bps).isOk = false)
    ∧ (∀ a bps : Nat, U256_MAX < a * 10000 → (percent_div a bps).isOk = false)
    ∧ (∀ a bps : Nat, 5000 + a * bps ≤ U256_MAX →
        percent_mul a bps = Except.ok ((5000 + a * bps) / 10000))
    ∧ (∀ a bps : Nat, bps ≠ 0 → bps / 2 + a * 10000 ≤ U256_MAX →
        percent_div a bps = Except.ok ((bps / 2 + a * 10000) / bps)) := by
  refine ⟨?_, ?_, ?_, ?_, ?_⟩
  · intro a
    by_cases h : a * 10000 ≤ U256_MAX
    · by_cases h2 : 0 / 2 + a * 10000 ≤ U256_MAX
      · simp [percent_div, u256_mul, u256_add, u256_div, h, h2, Bind.bind, Except.bind, Except.isOk, Except.toBool]
      · simp [percent_div, u256_mul, u256_add, u256_div, h, h2, Bind.bind, Except.bind, Except.isOk, Except.toBool]
    · simp [percent_div, u256_mul, h, Bind.bind, Except.bind, Except.isOk, Except.toBool]
  · intro a bps h
    simp [percent_mul, u256_mul, Nat.not_le.mpr h, Bind.bind, Except.bind, Except.isOk, Except.toBool]
  · intro a bps h
    simp [percent_div, u256_mul, Nat.not_le.mpr h, Bind.bind, Except.bind, Except.isOk, Except.toBool]
  · intro a bps h
    have h1 : a * bps ≤ U256_MAX := le_trans (Nat.le_add_left _ _) h
    simp [percent_mul, u256_mul, u256_add, u256_div, h1, h, Bind.bind, Except.bind]
  · intro a bps hb h
    have h1 : a * 10000 ≤ U256_MAX := le_trans (Nat.le_add_left _ _) h
    simp [percent_div, u256_mul, u256_add, u256_div, h1, h, hb, Bind.bind, Except.bind]

/-- C10 witness: divide-by-zero reached at `bps = 0`; round-half-up values
at in-range inputs (the second matches the worked example of the spec:
`percent_mul(250, 500) = 13`). -/
theorem percent_helpers_totality_witness :
    (percent_div 7 0).isOk = false
    ∧ percent_mul 250 500 = Except.ok 13
    ∧ percent_div 100 500 = Except.ok 2000 :=
  ⟨percent_helpers_totality.1 7,
    percent_helpers_totality.2.2.2.1 250 500 (by decide),
    percent_helpers_totality.2.2.2.2 100 500 (by decide) (by decide)⟩

/-- C5: the close-factor threshold string is parsed as hexadecimal by
`U256::from`, so the value the code compares against is
2748564866982723190784 (about 2748.56 in wad units) rather than the
intended wad 0.95; at the failing input `health_factor = 1e18` the code
selects close factor 10000 where the spec selects 5000, and indeed the
code only ever selects 5000 above the hexadecimal threshold.  The
`debt_to_cover` formula itself matches the spec: a debt of 1000 gives
exactly 500 at 5000 bps and exactly 1000 at the close factor the code
picks for `health_factor = 1e18`. -/
theorem close_factor_threshold_divergence :
    LIQUIDATION_CLOSE_FACTOR_THRESHOLD = 2748564866982723190784
    ∧ close_factor 1000000000000000000 = 10000
    ∧ spec_close_factor 1000000000000000000 = 5000
    ∧ (∀ h : Nat, close_factor h = if 2748564866982723190784 < h then 5000 else 10000)
    ∧ close_factor 2748564866982723190784 = 10000
    ∧ close_factor 2748564866982723190785 = 5000
    ∧ 1000 * 5000 / MAX_LIQUIDATION_CLOSE_FACTOR = 500
    ∧ 1000 * close_factor 1000000000000000000 / MAX_LIQUIDATION_CLOSE_FACTOR = 1000 := by
  refine ⟨rfl, rfl, rfl, ?_, rfl, rfl, rfl, rfl⟩
  intro h
  rw [close_factor]
  rfl

/-! ## C3: log query windows -/

theorem mem_get_log_windows {f t : Nat} {w : Nat × Nat} :
    w ∈ get_log_windows f t
      ↔ ∃ k, k < (t - f + 1023) / 1024 ∧ w = (f + 1024 * k, min (f + 1024 * k + 1023) t) := by
  simp only [get_log_windows, List.mem_map, List.mem_range]
  constructor
  · rintro ⟨k, hk, rfl⟩; exact ⟨k, hk, rfl⟩
  · rintro ⟨k, hk, rfl⟩; exact ⟨k, hk, rfl⟩

/-- C3 counterexample: with checkpoint 0 and head 1024 the single window
is `[0, 1023]`; the head block 1024 lies in `[f, t]` but in no window. -/
theorem log_windows_skip_head_block :
    get_log_windows 0 1024 = [(0, 1023)]
    ∧ ∀ w ∈ get_log_windows 0 1024, ¬ (w.1 ≤ 1024 ∧ 1024 ≤ w.2) := by
  refine ⟨rfl, ?_⟩
  decide

/-- C3 (amended): the windows are within `[f, t]`, each at most 1024
blocks wide, pairwise disjoint, contiguous (each window starts one past
the previous end), and a block is covered exactly when it lies in
`[f, t]` and is not the head block `t` of a pass whose span `t - f` is a
multiple of 1024 (in particular a pass with `f = t` queries nothing). -/
theorem log_windows_coverage :
    ∀ f t : Nat,
      (∀ w ∈ get_log_windows f t, f ≤ w.1 ∧ w.1 ≤ w.2 ∧ w.2 ≤ t ∧ w.2 + 1 ≤ w.1 + 1024)
      ∧ List.Pairwise (fun w w' : Nat × Nat => w.2 < w'.1) (get_log_windows f t)
      ∧ (∀ i : Nat, i + 1 < (get_log_windows f t).length →
          ((get_log_windows f t)[i + 1]?).map Prod.fst
            = ((get_log_windows f t)[i]?).map (fun w => w.2 + 1))
      ∧ (∀ b : Nat, (∃ w ∈ get_log_windows f t, w.1 ≤ b ∧ b ≤ w.2)
          ↔ (f ≤ b ∧ b ≤ t ∧ ¬ (b = t ∧ (t - f) % 1024 = 0))) := by
  intro f t
  refine ⟨?_, ?_, ?_, ?_⟩
  · intro w hw
    rw [mem_get_log_windows] at hw
    obtain ⟨k, hk, rfl⟩ := hw
    dsimp only
    omega
  · rw [get_log_windows, List.pairwise_map]
    refine List.Pairwise.imp ?_ (List.pairwise_lt_range _)
    intro k k' hkk
    dsimp only
    omega
  · intro i hi
    rw [get_log_windows, List.length_map, List.length_range] at hi
    rw [get_log_windows, List.getElem?_map, List.getElem?_map,
      List.getElem?_range hi, List.getElem?_range (by omega)]
    simp only [Option.map_some']
    congr 1
    omega
  · intro b
    constructor
    · rintro ⟨w, hw, h1, h2⟩
      rw [mem_get_log_windows] at hw
      obtain ⟨k, hk, rfl⟩ := hw
      dsimp only at h1 h2
      omega
    · rintro ⟨h1, h2, h3⟩
      refine ⟨(f + 1024 * ((b - f) / 1024), min (f + 1024 * ((b - f) / 1024) + 1023) t),
        mem_get_log_windows.mpr ⟨(b - f) / 1024, by omega, rfl⟩, by dsimp only; omega,
        by dsimp only; omega⟩

/-- C3 witness: block 4 of the pass from checkpoint 3 to head 5 is
covered by a window. -/
theorem log_windows_coverage_witness :
    ∃ w ∈ get_log_windows 3 5, w.1 ≤ 4 ∧ 4 ≤ w.2 :=
  ((log_windows_coverage 3 5).2.2.2 4).mpr (by decide)

/-! ## C4: underwater scanner -/

theorem mem_insert_by_hf {x z : Nat × Nat} :
    ∀ {l : List (Nat × Nat)}, z ∈ insert_by_hf x l → z = x ∨ z ∈ l := by
  intro l
  induction l with
  | nil => intro h; simp [insert_by_hf] at h; exact Or.inl h
  | cons y ys ih =>
    intro h
    rw [insert_by_hf] at h
    by_cases hc : x.2 < y.2
    · rw [if_pos hc] at h
      rcases List.mem_cons.mp h with h | h
      · exact Or.inl h
      · exact Or.inr h
    · rw [if_neg hc] at h
      rcases List.mem_cons.mp h with h | h
      · exact Or.inr (by simp [h])
      · rcases ih h with h2 | h2
        · exact Or.inl h2
        · exact Or.inr (List.mem_cons_of_mem _ h2)

theorem mem_sort_by_hf {z : Nat × Nat} :
    ∀ {l : List (Nat × Nat)}, z ∈ sort_by_hf l → z ∈ l := by
  intro l
  induction l with
  | nil => intro h; exact absurd h (by simp [sort_by_hf])
  | cons y ys ih =>
    intro h
    have h2 : z ∈ insert_by_hf y (sort_by_hf ys) := h
    rcases mem_insert_by_hf h2 with h3 | h3
    · simp [h3]
    · exact List.mem_cons_of_mem _ (ih h3)

theorem length_insert_by_hf (x : Nat × Nat) :
    ∀ l : List (Nat × Nat), (insert_by_hf x l).length = l.length + 1 := by
  intro l
  induction l with
  | nil => rfl
  | cons y ys ih =>
    rw [insert_by_hf]
    by_cases hc : x.2 < y.2
    · rw [if_pos hc]; simp
    · rw [if_neg hc]; simp [ih]

theorem length_sort_by_hf : ∀ l : List (Nat × Nat), (sort_by_hf l).length = l.length := by
  intro l
  induction l with
  | nil => rfl
  | cons y ys ih =>
    show (insert_by_hf y (sort_by_hf ys)).length = ys.length + 1
    rw [length_insert_by_hf, ih]

theorem pairwise_insert_by_hf {x : Nat × Nat} :
    ∀ {l : List (Nat × Nat)}, List.Pairwise (fun p q : Nat × Nat => p.2 ≤ q.2) l →
      List.Pairwise (fun p q : Nat × Nat => p.2 ≤ q.2) (insert_by_hf x l) := by
  intro l
  induction l with
  | nil => intro _; simp [insert_by_hf]
  | cons y ys ih =>
    intro h
    rw [List.pairwise_cons] at h
    obtain ⟨hy, hys⟩ := h
    rw [insert_by_hf]
    by_cases hc : x.2 < y.2
    · rw [if_pos hc, List.pairwise_cons]
      refine ⟨?_, List.pairwise_cons.mpr ⟨hy, hys⟩⟩
      intro z hz
      rcases List.mem_cons.mp hz with hz | hz
      · rw [hz]; omega
      · exact le_trans (le_of_lt hc) (hy z hz)
    · rw [if_neg hc, List.pairwise_cons]
      refine ⟨?_, ih hys⟩
      intro z hz
      rcases mem_insert_by_hf hz with h2 | h2
      · rw [h2]; omega
      · exact hy z h2

theorem pairwise_sort_by_hf :
    ∀ l : List (Nat × Nat), List.Pairwise (fun p q : Nat × Nat => p.2 ≤ q.2) (sort_by_hf l) := by
  intro l
  induction l with
  | nil => simp [sort_by_hf]
  | cons y ys ih => exact pairwise_insert_by_hf ih

theorem mem_underwater_scan {P : Nat × Nat → Prop} :
    ∀ (cs : List (List (Nat × Nat))) (acc : List (Nat × Nat)),
      (∀ p ∈ acc, P p) → (∀ p : Nat × Nat, p.2 < HEALTH_FACTOR_ONE → P p) →
      ∀ p ∈ underwater_scan cs acc, P p := by
  intro cs
  induction cs with
  | nil => intro acc hacc _ p hp; exact hacc p hp
  | cons c rest ih =>
    intro acc hacc hhf p hp
    rw [underwater_scan] at hp
    have hacc2 : ∀ q ∈ acc ++ c.filter (fun p => p.2 < HEALTH_FACTOR_ONE), P q := by
      intro q hq
      rcases List.mem_append.mp hq with h | h
      · exact hacc q h
      · have := List.mem_filter.mp h
        exact hhf q (by simpa using this.2)
    by_cases hlen : 50 ≤ (acc ++ c.filter (fun p => p.2 < HEALTH_FACTOR_ONE)).length
    · rw [if_pos hlen] at hp
      exact hacc2 p hp
    · rw [if_neg hlen] at hp
      exact ih _ hacc2 hhf p hp

theorem length_underwater_scan :
    ∀ (cs : List (List (Nat × Nat))) (acc : List (Nat × Nat)),
      (∀ c ∈ cs, c.length ≤ MULTICALL_CHUNK_SIZE) → acc.length ≤ 49 →
      (underwater_scan cs acc).length ≤ 49 + MULTICALL_CHUNK_SIZE := by
  intro cs
  induction cs with
  | nil =>
    intro acc _ hacc
    rw [underwater_scan]
    omega
  | cons c rest ih =>
    intro acc hcs hacc
    rw [underwater_scan]
    have hc : c.length ≤ MULTICALL_CHUNK_SIZE := hcs c (by simp)
    have hflt : (c.filter (fun p => p.2 < HEALTH_FACTOR_ONE)).length ≤ MULTICALL_CHUNK_SIZE :=
      le_trans (List.length_filter_le _ _) hc
    have hlen2 : (acc ++ c.filter (fun p => p.2 < HEALTH_FACTOR_ONE)).length
        ≤ 49 + MULTICALL_CHUNK_SIZE := by
      rw [List.length_append]
      omega
    by_cases hlen : 50 ≤ (acc ++ c.filter (fun p => p.2 < HEALTH_FACTOR_ONE)).length
    · rw [if_pos hlen]
      exact hlen2
    · rw [if_neg hlen]
      exact ih _ (fun d hd => hcs d (List.mem_cons_of_mem _ hd)) (by omega)

theorem length_mem_chunksN {α : Type} :
    ∀ (n : Nat) (l : List α) (c : List α), c ∈ chunksN n l → c.length ≤ MULTICALL_CHUNK_SIZE := by
  intro n
  induction n with
  | zero => intro l c hc; exact absurd hc (by simp [chunksN])
  | succ n ih =>
    intro l c hc
    cases l with
    | nil => exact absurd hc (by simp [chunksN])
    | cons x xs =>
      rw [chunksN] at hc
      rcases List.mem_cons.mp hc with hc | hc
      · rw [hc, List.length_take]
        exact min_le_left _ _
      · exact ih _ _ hc

/-- C4 counterexample: with one 51-candidate chunk, all underwater, the
cap test at the chunk boundary fires only after the whole chunk was
appended, so the returned list has 51 entries, exceeding the cap of 50. -/
theorem underwater_cap_exceeded :
    (get_underwater_borrowers ((List.range 51).map (fun i => (i, i)))).length = 51 := rfl

/-- C4 (amended): the result contains only borrowers whose health factor
is strictly below 1e18 and is sorted ascending by health factor, but the
50-candidate cap is only tested at 500-borrower chunk boundaries, so the
length is bounded by 49 + 500 = 549 rather than 50. -/
theorem underwater_output_spec :
    ∀ pairs : List (Nat × Nat),
      (∀ p ∈ get_underwater_borrowers pairs, p.2 < HEALTH_FACTOR_ONE)
      ∧ List.Pairwise (fun p q : Nat × Nat => p.2 ≤ q.2) (get_underwater_borrowers pairs)
      ∧ (get_underwater_borrowers pairs).length ≤ 49 + MULTICALL_CHUNK_SIZE := by
  intro pairs
  refine ⟨?_, ?_, ?_⟩
  · intro p hp
    have h2 : p ∈ underwater_scan (chunks pairs) [] := mem_sort_by_hf hp
    exact mem_underwater_scan (chunks pairs) [] (by simp) (fun q hq => hq) p h2
  · exact pairwise_sort_by_hf _
  · rw [get_underwater_borrowers, length_sort_by_hf]
    exact length_underwater_scan (chunks pairs) []
      (fun c hc => length_mem_chunksN _ _ _ hc) (by simp)

/-- C4 witness: a single healthy-free borrower with health factor 0 is
reported with its sub-1e18 health factor. -/
theorem underwater_output_spec_witness :
    ((1, 0) : Nat × Nat).2 < HEALTH_FACTOR_ONE :=
  (underwater_output_spec [(1, 0)]).1 (1, 0) (by decide)

/-! ## C2: update_state atomicity -/

/-- C2 counterexample: both log queries succeed but the cache write
fails; `update_state` returns an error, yet the in-memory checkpoint has
already advanced to the head (20) while the persisted cache is unchanged
— the checkpoint is not advanced "only after" a successful persist. -/
theorem update_state_checkpoint_without_persist :
    (update_state ⟨10, [], none⟩ 20 (Except.ok []) (Except.ok []) false).2.last_block_number = 20
    ∧ (update_state ⟨10, [], none⟩ 20 (Except.ok []) (Except.ok []) false).2.cache_file = none
    ∧ (update_state ⟨10, [], none⟩ 20 (Except.ok []) (Except.ok []) false).1.isOk = false :=
  ⟨rfl, rfl, rfl⟩

/-- C2 (amended): if a borrow- or supply-log query fails, `update_state`
returns that error with the checkpoint and the persisted cache unchanged;
when both queries succeed the checkpoint is advanced to the head before
the cache write, so a successful write persists `{head, borrower map}`
with the checkpoint at head, while a failed write leaves the checkpoint
advanced and the cache unchanged. -/
theorem update_state_outcomes :
    ∀ (s : SyncState) (latest : Nat) (br sr : Except String (List LogEntry)) (w : Bool),
      (∀ e, br = Except.error e → update_state s latest br sr w = (Except.error e, s))
      ∧ (∀ e blogs, br = Except.ok blogs → sr = Except.error e →
          (update_state s latest br sr w).1 = Except.error e
          ∧ (update_state s latest br sr w).2.last_block_number = s.last_block_number
          ∧ (update_state s latest br sr w).2.cache_file = s.cache_file)
      ∧ (∀ blogs slogs, br = Except.ok blogs → sr = Except.ok slogs → w = true →
          (update_state s latest br sr w).1 = Except.ok ()
          ∧ (update_state s latest br sr w).2.last_block_number = latest
          ∧ (update_state s latest br sr w).2.cache_file
              = some ⟨latest, (update_state s latest br sr w).2.borrowers⟩)
      ∧ (∀ blogs slogs, br = Except.ok blogs → sr = Except.ok slogs → w = false →
          (update_state s latest br sr w).1.isOk = false
          ∧ (update_state s latest br sr w).2.last_block_number = latest
          ∧ (update_state s latest br sr w).2.cache_file = s.cache_file) := by
  intro s latest br sr w
  refine ⟨?_, ?_, ?_, ?_⟩
  · intro e he
    rw [he]
    rfl
  · intro e blogs hb hs
    rw [hb, hs]
    exact ⟨rfl, rfl, rfl⟩
  · intro blogs slogs hb hs hw
    rw [hb, hs, hw]
    exact ⟨rfl, rfl, rfl⟩
  · intro blogs slogs hb hs hw
    rw [hb, hs, hw]
    exact ⟨rfl, rfl, rfl⟩

/-- C2 witness: a fully successful pass persists the head and borrower
map and reports the head as the new checkpoint. -/
theorem update_state_outcomes_witness :
    (update_state ⟨10, [], none⟩ 20 (Except.ok []) (Except.ok []) true).1 = Except.ok ()
    ∧ (update_state ⟨10, [], none⟩ 20 (Except.ok []) (Except.ok []) true).2.last_block_number = 20
    ∧ (update_state ⟨10, [], none⟩ 20 (Except.ok []) (Except.ok []) true).2.cache_file
        = some ⟨20, (update_state ⟨10, [], none⟩ 20 (Except.ok []) (Except.ok []) true).2.borrowers⟩ :=
  (update_state_outcomes ⟨10, [], none⟩ 20 (Except.ok []) (Except.ok []) true).2.2.1 [] [] rfl rfl rfl

/-! ## C6: token configuration refresh -/

/-- C6 counterexample: reserve 7 succeeds in one cycle, then fails its
configuration fetch in the next cycle; the map still contains the stale
entry for 7 afterwards, because `update_token_configs` never clears. -/
theorem token_configs_keep_stale_entry :
    lookupAssoc
      (update_token_configs
        (update_token_configs [] [⟨7, 70, "T", Except.ok (18, 1, 2, 3, 4), Except.ok 5⟩])
        [⟨7, 70, "T", Except.error "rpc failure", Except.ok 5⟩])
      7 = some ⟨7, 70, 18, 1, 2, 3, 4, 5, "T"⟩ := rfl

theorem lookup_insertAssoc_self {β : Type} :
    ∀ (l : List (Nat × β)) (k : Nat) (v : β), lookupAssoc (insertAssoc l k v) k = some v := by
  intro l k v
  induction l with
  | nil => simp [insertAssoc, lookupAssoc]
  | cons hd rest ih =>
    obtain ⟨k', v'⟩ := hd
    rw [insertAssoc]
    by_cases hk : k' = k
    · rw [if_pos hk, lookupAssoc, if_pos rfl]
    · rw [if_neg hk, lookupAssoc, if_neg hk]
      exact ih

theorem lookup_insertAssoc_ne {β : Type} :
    ∀ (l : List (Nat × β)) (k a : Nat) (v : β), k ≠ a →
      lookupAssoc (insertAssoc l k v) a = lookupAssoc l a := by
  intro l k a v hka
  induction l with
  | nil => simp [insertAssoc, lookupAssoc, hka]
  | cons hd rest ih =>
    obtain ⟨k', v'⟩ := hd
    rw [insertAssoc]
    by_cases hk : k' = k
    · rw [if_pos hk, lookupAssoc, if_neg hka, lookupAssoc, hk, if_neg hka]
    · rw [if_neg hk, lookupAssoc, lookupAssoc]
      by_cases hk2 : k' = a
      · rw [if_pos hk2, if_pos hk2]
      · rw [if_neg hk2, if_neg hk2]
        exact ih

theorem update_token_configs_eq_foldl :
    ∀ (tokens : List (Nat × TokenConfig)) (fetches : List ReserveFetch),
      update_token_configs tokens fetches = fetches.foldl token_config_step tokens := by
  intro tokens fetches
  rfl

theorem token_config_step_skip {tks : List (Nat × TokenConfig)} {f : ReserveFetch} {a : Nat}
    (h : f.token_address ≠ a ∨ fetch_ok f = false) :
    lookupAssoc (token_config_step tks f) a = lookupAssoc tks a := by
  rw [token_config_step]
  cases hc : f.configuration with
  | error e => rfl
  | ok val =>
    obtain ⟨d, l2, th, bo, re⟩ := val
    cases hf : f.protocol_fee with
    | error e => rfl
    | ok fee =>
      rcases h with h | h
      · exact lookup_insertAssoc_ne _ _ _ _ h
      · rw [fetch_ok, hc, hf] at h
        exact absurd h (by simp [Except.isOk, Except.toBool])

theorem token_config_step_present {tks : List (Nat × TokenConfig)} {f : ReserveFetch} {a : Nat}
    (h : ∃ c, lookupAssoc tks a = some c) :
    ∃ c, lookupAssoc (token_config_step tks f) a = some c := by
  rw [token_config_step]
  cases hc : f.configuration with
  | error e => exact h
  | ok val =>
    obtain ⟨d, l2, th, bo, re⟩ := val
    cases hf : f.protocol_fee with
    | error e => exact h
    | ok fee =>
      by_cases hk : f.token_address = a
      · rw [hk, lookup_insertAssoc_self]
        exact ⟨_, rfl⟩
      · rw [lookup_insertAssoc_ne _ _ _ _ hk]
        exact h

theorem foldl_token_config_present :
    ∀ (fetches : List ReserveFetch) (tks : List (Nat × TokenConfig)) (a : Nat),
      (∃ c, lookupAssoc tks a = some c) →
      ∃ c, lookupAssoc (fetches.foldl token_config_step tks) a = some c := by
  intro fetches
  induction fetches with
  | nil => intro tks a h; exact h
  | cons f rest ih =>
    intro tks a h
    exact ih _ _ (token_config_step_present h)

/-- C6 (amended): `update_token_configs` upserts each reserve whose two
introspection calls both succeed and leaves every other key untouched; in
particular an entry present before the cycle stays present even when its
asset fails introspection in this cycle (the map is never cleared), and a
key is absent afterwards only when it was absent before and did not
succeed in this cycle. -/
theorem token_configs_upsert :
    ∀ (tokens : List (Nat × TokenConfig)) (fetches : List ReserveFetch) (a : Nat),
      (∀ c, lookupAssoc tokens a = some c →
        ∃ c', lookupAssoc (update_token_configs tokens fetches) a = some c')
      ∧ ((∀ f ∈ fetches, f.token_address ≠ a ∨ fetch_ok f = false) →
        lookupAssoc (update_token_configs tokens fetches) a = lookupAssoc tokens a)
      ∧ (∀ f ∈ fetches, f.token_address = a → fetch_ok f = true →
        ∃ c', lookupAssoc (update_token_configs tokens fetches) a = some c') := by
  intro tokens fetches a
  refine ⟨?_, ?_, ?_⟩
  · intro c hc
    rw [update_token_configs_eq_foldl]
    exact foldl_token_config_present fetches tokens a ⟨c, hc⟩
  · rw [update_token_configs_eq_foldl]
    induction fetches generalizing tokens with
    | nil => intro _; rfl
    | cons f rest ih =>
      intro h
      rw [List.foldl_cons]
      rw [ih _ (fun g hg => h g (List.mem_cons_of_mem _ hg))]
      exact token_config_step_skip (h f (by simp))
  · rw [update_token_configs_eq_foldl]
    induction fetches generalizing tokens with
    | nil => intro f hf; exact absurd hf (by simp)
    | cons g rest ih =>
      intro f hf ha hok
      rcases List.mem_cons.mp hf with hf | hf
      · rw [List.foldl_cons]
        apply foldl_token_config_present
        subst hf
        rw [token_config_step]
        cases hc : f.configuration with
        | error e => rw [fetch_ok, hc] at hok; exact absurd hok (by simp [Except.isOk, Except.toBool])
        | ok val =>
          obtain ⟨d, l2, th, bo, re⟩ := val
          cases hpf : f.protocol_fee with
          | error e =>
            rw [fetch_ok, hc, hpf] at hok
            exact absurd hok (by simp [Except.isOk, Except.toBool])
          | ok fee =>
            rw [ha, lookup_insertAssoc_self]
            exact ⟨_, rfl⟩
      · rw [List.foldl_cons]
        exact ih _ f hf ha hok

/-- C6 witness: a successful fetch for reserve 7 makes it present. -/
theorem token_configs_upsert_witness :
    ∃ c', lookupAssoc
      (update_token_configs [] [⟨7, 70, "T", Except.ok (18, 1, 2, 3, 4), Except.ok 5⟩]) 7
        = some c' :=
  (token_configs_upsert [] [⟨7, 70, "T", Except.ok (18, 1, 2, 3, 4), Except.ok 5⟩] 7).2.2
    ⟨7, 70, "T", Except.ok (18, 1, 2, 3, 4), Except.ok 5⟩ (by simp) rfl rfl

/-! ## C1: tick processing and best-opportunity selection -/

theorem track_best_some :
    ∀ (cands : List (Except String LiquidationOpportunity)) (b : LiquidationOpportunity),
      track_best cands b.profit_eth (some b) = (ok_ops cands).foldl spec_track_step (some b) := by
  intro cands
  induction cands with
  | nil => intro b; rfl
  | cons c rest ih =>
    intro b
    cases c with
    | error e =>
      rw [track_best]
      have h2 : ok_ops (Except.error e :: rest) = ok_ops rest := by
        simp [ok_ops, List.filterMap_cons, Except.toOption]
      rw [h2]
      exact ih b
    | ok op =>
      rw [track_best]
      have h2 : ok_ops (Except.ok op :: rest) = op :: ok_ops rest := by
        simp [ok_ops, List.filterMap_cons, Except.toOption]
      rw [h2, List.foldl_cons]
      by_cases hgt : op.profit_eth > b.profit_eth
      · rw [if_pos hgt, ih op]
        have h3 : spec_track_step (some b) op = some op := by
          rw [spec_track_step, if_pos hgt]
        rw [h3]
      · rw [if_neg hgt, ih b]
        have h3 : spec_track_step (some b) op = some b := by
          rw [spec_track_step, if_neg hgt]
        rw [h3]

theorem track_best_min_eq_spec :
    ∀ cands : List (Except String LiquidationOpportunity),
      (∀ op ∈ ok_ops cands, I256_MIN < op.profit_eth) →
      track_best cands I256_MIN none = spec_track_best (ok_ops cands) := by
  intro cands
  induction cands with
  | nil => intro _; rfl
  | cons c rest ih =>
    intro h
    cases c with
    | error e =>
      rw [track_best]
      have h2 : ok_ops (Except.error e :: rest) = ok_ops rest := by
        simp [ok_ops, List.filterMap_cons, Except.toOption]
      rw [h2] at h ⊢
      exact ih h
    | ok op =>
      have h2 : ok_ops (Except.ok op :: rest) = op :: ok_ops rest := by
        simp [ok_ops, List.filterMap_cons, Except.toOption]
      rw [h2] at h
      have hop : I256_MIN < op.profit_eth := h op (by simp)
      rw [track_best, if_pos hop, h2, spec_track_best, List.foldl_cons]
      have h3 : spec_track_step none op = some op := rfl
      rw [h3, track_best_some rest op]

/-- C1 counterexample: a tick whose single candidate evaluates to profit
exactly 0 — non-positive — still produces a submit-transaction action,
because the guard in `process_new_tick_event` only drops strictly
negative profits. -/
theorem process_new_tick_zero_profit_acts :
    get_best_liquidation_op false [Except.ok ⟨1, 2, 3, 4, 0, "", "", 0⟩]
        = Except.ok (some ⟨1, 2, 3, 4, 0, "", "", 0⟩)
    ∧ (⟨1, 2, 3, 4, 0, "", "", 0⟩ : LiquidationOpportunity).profit_eth ≤ 0
    ∧ process_new_tick_event (Except.ok ()) false [Except.ok ⟨1, 2, 3, 4, 0, "", "", 0⟩] true 50
        = [TickAction.submit_tx ⟨1, 2, 3, 4, 0, "", "", 0⟩ 50 0] :=
  ⟨rfl, le_refl 0, rfl⟩

/-- C1 (amended): an action is emitted only when the selected best
opportunity has non-negative profit (a best with strictly negative
profit yields no actions, but zero profit is still acted on), and the
best opportunity is tracked under strict greater-than comparison on
profit, keeping the first-encountered candidate among equal maximal
profits (for profits above `I256::MIN`, the loop seed). -/
theorem process_new_tick_profit_gate :
    ∀ (u : Except String Unit) (ue : Bool) (cands : List (Except String LiquidationOpportunity))
      (bo : Bool) (bp : Nat),
      ((∃ op, get_best_liquidation_op ue cands = Except.ok (some op) ∧ op.profit_eth < 0) →
        process_new_tick_event u ue cands bo bp = [])
      ∧ (∀ op tp, TickAction.submit_tx op bp tp ∈ process_new_tick_event u ue cands bo bp →
        get_best_liquidation_op ue cands = Except.ok (some op) ∧ 0 ≤ op.profit_eth
          ∧ tp = op.profit_eth.toNat)
      ∧ ((∀ op ∈ ok_ops cands, I256_MIN < op.profit_eth) →
        track_best cands I256_MIN none = spec_track_best (ok_ops cands)) := by
  intro u ue cands bo bp
  refine ⟨?_, ?_, track_best_min_eq_spec cands⟩
  · rintro ⟨op, hbest, hneg⟩
    cases u with
    | error e => rfl
    | ok _ =>
      rw [process_new_tick_event, hbest]
      dsimp only [Except.toOption, Option.join, Option.bind, id]
      rw [if_pos hneg]
  · intro op tp hmem
    cases u with
    | error e => exact absurd hmem (by simp [process_new_tick_event])
    | ok _ =>
      rw [process_new_tick_event] at hmem
      cases hb : ((get_best_liquidation_op ue cands).toOption).join with
      | none => rw [hb] at hmem; exact absurd hmem (by simp)
      | some op' =>
        rw [hb] at hmem
        dsimp only at hmem
        by_cases hneg : op'.profit_eth < 0
        · rw [if_pos hneg] at hmem; exact absurd hmem (by simp)
        · rw [if_neg hneg] at hmem
          by_cases hbo : bo = false
          · rw [if_pos hbo] at hmem; exact absurd hmem (by simp)
          · rw [if_neg hbo] at hmem
            rw [u256_of_profit, if_neg hneg] at hmem
            have h3 := List.mem_singleton.mp hmem
            have h4 : op = op' ∧ bp = bp ∧ tp = op'.profit_eth.toNat := by
              injection h3 with h4 h5 h6
              exact ⟨h4, h5, h6⟩
            obtain ⟨h4, _, h6⟩ := h4
            subst h4
            refine ⟨?_, by omega, h6⟩
            rw [get_best_liquidation_op] at hb ⊢
            by_cases hue : ue = true
            · rw [if_pos hue] at hb
              exact absurd hb (by simp [Except.toOption, Option.join])
            · rw [if_neg hue] at hb ⊢
              dsimp only [Except.toOption, Option.join, Option.bind, id] at hb
              rw [hb]

/-- C1 witness: a strictly negative best profit yields no actions. -/
theorem process_new_tick_profit_gate_witness :
    process_new_tick_event (Except.ok ()) false [Except.ok ⟨1, 2, 3, 4, -5, "", "", 0⟩] true 50
      = [] :=
  (process_new_tick_profit_gate (Except.ok ()) false [Except.ok ⟨1, 2, 3, 4, -5, "", "", 0⟩]
      true 50).1
    ⟨⟨1, 2, 3, 4, -5, "", "", 0⟩, rfl, by decide⟩

/-! ## C7: rejection conditions of get_liquidation_opportunity -/

theorem except_bind_ok {α β : Type} {x : Except String α} {g : α → Except String β} {v : β} :
    (x >>= g) = Except.ok v ↔ ∃ a, x = Except.ok a ∧ g a = Except.ok v := by
  cases x <;> simp [Bind.bind, Except.bind]

theorem direct_mode_finish_ok
    {ba ca da dtc ctl cu du ape dpe : Nat} {cs ds : String} {op : LiquidationOpportunity}
    (h : direct_mode_finish ba ca da dtc ctl cu du ape dpe cs ds = Except.ok op) :
    op.debt_to_cover = dtc ∧ op.collateral = ca ∧ op.debt = da ∧ dtc ≠ 0 ∧ ca ≠ da := by
  unfold direct_mode_finish at h
  simp only [except_bind_ok] at h
  obtain ⟨p1, hp1, h⟩ := h
  obtain ⟨c1, hc1, h⟩ := h
  obtain ⟨av1, hav1, h⟩ := h
  obtain ⟨cu2, hcu2, h⟩ := h
  obtain ⟨av, hav, h⟩ := h
  obtain ⟨p2, hp2, h⟩ := h
  obtain ⟨d2, hd2, h⟩ := h
  obtain ⟨dv1, hdv1, h⟩ := h
  obtain ⟨du2, hdu2, h⟩ := h
  obtain ⟨dv, hdv, h⟩ := h
  obtain ⟨pe, hpe, h⟩ := h
  obtain ⟨pfm, hpfm, h⟩ := h
  split at h
  · exact absurd h (by simp)
  · split at h
    · exact absurd h (by simp)
    · cases h
      refine ⟨rfl, rfl, rfl, by assumption, by assumption⟩

/-- C7 counterexample: in helper-contract mode neither rejection fires.
First conjunct: collateral and debt are the same asset (5) and the
returned value is still an opportunity, not an error.  Second conjunct:
the computed `debt_to_cover` is 0 (no outstanding debt) and the returned
value is still an opportunity. -/
theorem helper_mode_no_guard :
    get_liquidation_opportunity false 9 [(5, ⟨5, 50, 0, 0, 0, 10000, 0, 0, "T"⟩)]
        [(5, 100), (9, 100)] ⟨1, [5], [5]⟩ 0 10 0 1000 false (Except.ok 3)
      = Except.ok ⟨1, 5, 5, 10, 3, "T", "T", 0⟩
    ∧ get_liquidation_opportunity false 9
        [(5, ⟨5, 50, 0, 0, 0, 10000, 0, 0, "T"⟩), (6, ⟨6, 60, 0, 0, 0, 10000, 0, 0, "D"⟩)]
        [(5, 100), (6, 50), (9, 100)] ⟨1, [5], [6]⟩ 0 0 0 1000 false (Except.ok 3)
      = Except.ok ⟨1, 5, 6, 0, 3, "T", "D", 0⟩ :=
  ⟨rfl, rfl⟩

/-- C7 (amended): only in direct-liquidator mode does
`get_liquidation_opportunity` reject identical collateral/debt assets and
zero `debt_to_cover` — every direct-mode success has nonzero
`debt_to_cover` and distinct assets, while helper-contract mode performs
neither check and can return such opportunities. -/
theorem liquidation_op_guards :
    (∀ (weth : Nat) (tokens : List (Nat × TokenConfig)) (prices : List (Nat × Nat))
      (b : Borrower) (hf sd vd bal : Nat) (enc : Bool) (gain : Except String Int)
      (op : LiquidationOpportunity),
      get_liquidation_opportunity true weth tokens prices b hf sd vd bal enc gain
          = Except.ok op →
        op.debt_to_cover ≠ 0 ∧ op.collateral ≠ op.debt)
    ∧ (get_liquidation_opportunity false 9 [(5, ⟨5, 50, 0, 0, 0, 10000, 0, 0, "T"⟩)]
        [(5, 100), (9, 100)] ⟨1, [5], [5]⟩ 0 10 0 1000 false (Except.ok 3)).isOk = true := by
  constructor
  · intro weth tokens prices b hf sd vd bal enc gain op h
    unfold get_liquidation_opportunity at h
    simp only [except_bind_ok] at h
    obtain ⟨ca, hca, h⟩ := h
    obtain ⟨da, hda, h⟩ := h
    obtain ⟨cap, hcap, h⟩ := h
    obtain ⟨dap, hdap, h⟩ := h
    obtain ⟨cc, hcc, h⟩ := h
    obtain ⟨dc, hdc, h⟩ := h
    obtain ⟨cu, hcu, h⟩ := h
    obtain ⟨du, hdu, h⟩ := h
    obtain ⟨td, htd, h⟩ := h
    obtain ⟨tdc, htdc, h⟩ := h
    obtain ⟨d0, hd0, h⟩ := h
    obtain ⟨n1, hn1, h⟩ := h
    obtain ⟨n2, hn2, h⟩ := h
    obtain ⟨dd1, hdd1, h⟩ := h
    obtain ⟨bc, hbc, h⟩ := h
    obtain ⟨ctl, hctl, h⟩ := h
    obtain ⟨pr, hpr, h⟩ := h
    obtain ⟨ape, hape, h⟩ := h
    obtain ⟨dpe, hdpe, h⟩ := h
    obtain ⟨hdtc, hcol, hdebt, hz, hcd⟩ := direct_mode_finish_ok h
    rw [hdtc, hcol, hdebt]
    exact ⟨hz, hcd⟩
  · rfl

/-- C7 witness: a concrete direct-mode success, whose opportunity indeed
has nonzero `debt_to_cover` and distinct collateral and debt assets. -/
theorem liquidation_op_guards_witness :
    (⟨1, 5, 6, 10, 0, "T", "D", 100⟩ : LiquidationOpportunity).debt_to_cover ≠ 0
    ∧ (⟨1, 5, 6, 10, 0, "T", "D", 100⟩ : LiquidationOpportunity).collateral
        ≠ (⟨1, 5, 6, 10, 0, "T", "D", 100⟩ : LiquidationOpportunity).debt :=
  liquidation_op_guards.1 9
    [(5, ⟨5, 50, 0, 0, 0, 10000, 0, 0, "T"⟩), (6, ⟨6, 60, 0, 0, 0, 10000, 0, 0, "D"⟩)]
    [(5, 100), (6, 50), (9, 100)] ⟨1, [5], [6]⟩ 0 10 0 1000 false (Except.ok 3)
    ⟨1, 5, 6, 10, 0, "T", "D", 100⟩ rfl
